import Mathlib

/-!
Shallow embedding of the credential-rotating request dispatcher in
`src/main.py` (FastAPI `generate` endpoint plus its helpers
`send_warning_email` and `mark_key_notified`).

Modelling conventions:
* Machine floats (`BASE_BACKOFF_SECONDS`, `1.5 ** n`, `asyncio.sleep(0.2)`)
  are modelled over `ℚ` with exact arithmetic.
* An HTTP-level response is `RawOutcome.http status bodyStr`, where
  `bodyStr` is the serialized body text the code scans
  (`json.dumps(payload)` or `str(payload)` in `generate`); an
  `httpx.RequestError` is `RawOutcome.transportFailure`.
* The network is abstracted as an oracle `o : Nat → RawOutcome` giving the
  outcome of attempting the key at a given 1-based index (each index is
  attempted at most once per request, so the index determines the attempt).
* The emitter outcome (`send_warning_email` returning `True`/`False`) is an
  oracle `em : Nat → Bool` per key index.
* The sqlite ledger `key_notifications` is modelled by the list of key
  indices it holds; `INSERT OR REPLACE` keyed on `key_index` only changes
  membership when the index is new.
* Per attempt, the run records an `AttemptLog` entry (key index, 1-based
  attempt counter `total_attempts`, verdict, whether `send_warning_email`
  was invoked, whether `mark_key_notified` was invoked, and the delay
  slept after the attempt, if any).
-/

/-- The semantic verdict for one attempt, as the branch structure of
`generate` (src/main.py lines 188-238) distinguishes outcomes. -/
inductive Verdict where
  | success
  | rateLimited
  | authFailure
  | serverError
  | transportError
  | otherFailure
deriving DecidableEq, Repr

/-- Raw outcome of one upstream call (`call_gemini_with_key`): an HTTP
response with status code and serialized body text, or a transport-level
failure (`httpx.RequestError`). -/
inductive RawOutcome where
  | http (status : Nat) (bodyStr : String)
  | transportFailure (msg : String)
deriving DecidableEq, Repr

/-- Test `hasPrefixCL needle hay`: `needle` is a prefix of `hay` (character lists). -/
def hasPrefixCL : List Char → List Char → Bool
  | [], _ => true
  | _ :: _, [] => false
  | c :: cs, d :: ds => c == d && hasPrefixCL cs ds

/-- Test `containsCL hay needle`: `needle` occurs as a contiguous substring of
`hay`; models the Python `in` operator on strings. -/
def containsCL : List Char → List Char → Bool
  | [], needle => needle.isEmpty
  | c :: t, needle => hasPrefixCL needle (c :: t) || containsCL t needle

/-- Substring test on strings, via their character lists. -/
def strContains (hay needle : String) : Bool :=
  containsCL hay.data needle.data

/-- ASCII lower-casing of one character; models Python `str.lower` on the
characters relevant to the scanned ASCII keywords. -/
def lowerChar (c : Char) : Char :=
  if 65 ≤ c.toNat ∧ c.toNat ≤ 90 then Char.ofNat (c.toNat + 32) else c

/-- Character-wise lower-casing of a string (Python `body_str.lower()`). -/
def lowerStr (s : String) : String :=
  String.mk (s.data.map lowerChar)

/-- Body keyword scan of `generate` (src/main.py lines 199-202): lower-case
the serialized body and look for any of the four substrings. -/
def isRateLimitBody (bodyStr : String) : Bool :=
  let lower := lowerStr bodyStr
  strContains lower "ratelimit" || strContains lower "rate limit" ||
    strContains lower "ratelimitexceeded" || strContains lower "quota"

/-- Classification of an HTTP-level response, exactly as the branch order of
`generate` (src/main.py lines 188-238) decides it: 2xx first, then the
rate-limit test (status 429 OR body keyword scan), then 401/403, then 5xx,
else the fatal fall-through (`break`). -/
def classifyHttp (status : Nat) (bodyStr : String) : Verdict :=
  if 200 ≤ status ∧ status < 300 then Verdict.success
  else if status = 429 ∨ isRateLimitBody bodyStr then Verdict.rateLimited
  else if status = 401 ∨ status = 403 then Verdict.authFailure
  else if 500 ≤ status ∧ status < 600 then Verdict.serverError
  else Verdict.otherFailure

/-- Model of the module-level configuration globals of src/main.py:
`GEMINI_KEYS`, `WATCH_KEYS_INDICES`, `MAX_TOTAL_RETRIES_PER_PROMPT`,
`BASE_BACKOFF_SECONDS`. -/
structure Config where
  keys : List String
  watchSet : List Nat
  maxRetries : Nat
  baseBackoff : ℚ
deriving DecidableEq

/-- The data content of the `last_error` strings recorded by `generate`:
a network-error message (line 175), a rate-limit note naming the key index
(line 206), or a status/body note (line 226). -/
inductive ErrInfo where
  | network (msg : String)
  | rateLimit (idx : Nat)
  | httpStatus (status : Nat) (bodyStr : String)
deriving DecidableEq, Repr

/-- One recorded attempt of the key walk: the 1-based key index, the value
of `total_attempts` for this attempt, the verdict, whether
`send_warning_email` was invoked, whether `mark_key_notified` was invoked,
and the delay slept after this attempt (`none` on the terminal branches). -/
structure AttemptLog where
  keyIdx : Nat
  attemptNo : Nat
  verdict : Verdict
  alerted : Bool
  marked : Bool
  sleepAfter : Option ℚ
deriving DecidableEq, Repr

/-- Final outcome of one call of `generate`: HTTP 500 "No Gemini API keys
configured.", a success payload (`GeminiResponse` with `key_used_index`),
or HTTP 502 exhaustion carrying the last recorded error. -/
inductive DispatchResult where
  | notConfigured
  | succeeded (keyIdx : Nat) (bodyStr : String)
  | exhausted (lastError : Option ErrInfo)
deriving DecidableEq, Repr

/-- A full run of `generate`: its result, the per-attempt log, and the
ledger contents after the run. -/
structure RunResult where
  result : DispatchResult
  log : List AttemptLog
  ledger : List Nat
deriving DecidableEq, Repr

/-- Effect of `mark_key_notified` (src/main.py lines 69-78) on the set of
key indices present in the `key_notifications` table: `INSERT OR REPLACE`
keyed on `key_index` adds the index when absent and only refreshes the
timestamp when present. -/
def mark_key_notified (idx : Nat) (ledger : List Nat) : List Nat :=
  if idx ∈ ledger then ledger else idx :: ledger

/-- The backoff delay slept after `n` total attempts:
`BASE_BACKOFF_SECONDS * (1.5 ** (total_attempts - 1))`
(src/main.py lines 177, 221, 234). -/
def backoff (base : ℚ) (n : Nat) : ℚ :=
  base * (3 / 2) ^ (n - 1)

/-- The key walk of `generate` (src/main.py lines 164-238): iterate over
the remaining keys with `idx` the 1-based index of the current key, `att`
the attempts made so far, `le` the recorded last error, and `ledger` the
current table contents. `snap` is the snapshot `notified_keys` read once
at line 162. Every loop iteration first checks the retry budget, then
makes one attempt and acts on its classification. -/
def walk (cfg : Config) (o : Nat → RawOutcome) (em : Nat → Bool)
    (snap : List Nat) :
    List String → Nat → Nat → Option ErrInfo → List Nat → RunResult
  | [], _, _, le, ledger => ⟨DispatchResult.exhausted le, [], ledger⟩
  | _ :: rest, idx, att, le, ledger =>
    if cfg.maxRetries ≤ att then ⟨DispatchResult.exhausted le, [], ledger⟩
    else
      match o idx with
      | RawOutcome.transportFailure m =>
        let r := walk cfg o em snap rest (idx + 1) (att + 1)
          (some (ErrInfo.network m)) ledger
        ⟨r.result,
          ⟨idx, att + 1, Verdict.transportError, false, false,
            some (backoff cfg.baseBackoff (att + 1))⟩ :: r.log,
          r.ledger⟩
      | RawOutcome.http s b =>
        match classifyHttp s b with
        | Verdict.success =>
          ⟨DispatchResult.succeeded idx b,
            [⟨idx, att + 1, Verdict.success, false, false, none⟩], ledger⟩
        | Verdict.rateLimited =>
          let alerted := decide (idx ∈ cfg.watchSet) && !(decide (idx ∈ snap))
          let sent := alerted && em idx
          let r := walk cfg o em snap rest (idx + 1) (att + 1)
            (some (ErrInfo.rateLimit idx))
            (if sent then mark_key_notified idx ledger else ledger)
          ⟨r.result,
            ⟨idx, att + 1, Verdict.rateLimited, alerted, sent,
              some (backoff cfg.baseBackoff (att + 1))⟩ :: r.log,
            r.ledger⟩
        | Verdict.authFailure =>
          let r := walk cfg o em snap rest (idx + 1) (att + 1)
            (some (ErrInfo.httpStatus s b)) ledger
          ⟨r.result,
            ⟨idx, att + 1, Verdict.authFailure, false, false,
              some (1 / 5 : ℚ)⟩ :: r.log,
            r.ledger⟩
        | Verdict.serverError =>
          let r := walk cfg o em snap rest (idx + 1) (att + 1)
            (some (ErrInfo.httpStatus s b)) ledger
          ⟨r.result,
            ⟨idx, att + 1, Verdict.serverError, false, false,
              some (backoff cfg.baseBackoff (att + 1))⟩ :: r.log,
            r.ledger⟩
        | Verdict.otherFailure =>
          ⟨DispatchResult.exhausted (some (ErrInfo.httpStatus s b)),
            [⟨idx, att + 1, Verdict.otherFailure, false, false, none⟩], ledger⟩
        | Verdict.transportError =>
          -- unreachable: `classifyHttp` never yields `transportError`;
          -- mirror the fatal fall-through branch.
          ⟨DispatchResult.exhausted (some (ErrInfo.httpStatus s b)),
            [⟨idx, att + 1, Verdict.otherFailure, false, false, none⟩], ledger⟩

/-- The `generate` endpoint (src/main.py lines 146-242): reject an empty
key pool, snapshot the notified keys, then walk the pool from index 1 with
zero attempts made. -/
def generate (cfg : Config) (o : Nat → RawOutcome) (em : Nat → Bool)
    (ledger : List Nat) : RunResult :=
  if cfg.keys.isEmpty then ⟨DispatchResult.notConfigured, [], ledger⟩
  else walk cfg o em ledger cfg.keys 1 0 none ledger

/-- Number of times `send_warning_email` was invoked for key index `i`
during a run. -/
def alertCount (r : RunResult) (i : Nat) : Nat :=
  (r.log.filter (fun a => (a.keyIdx == i) && a.alerted)).length

/-- Number of times `mark_key_notified` was invoked for key index `i`
during a run. -/
def markCount (r : RunResult) (i : Nat) : Nat :=
  (r.log.filter (fun a => (a.keyIdx == i) && a.marked)).length

/-- Did the run attempt key index `i` with resulting verdict `v`? -/
def hasAttempt (r : RunResult) (i : Nat) (v : Verdict) : Bool :=
  r.log.any (fun a => (a.keyIdx == i) && (a.verdict == v))

/-- Verdict of the attempt at 0-based position `k` of the run's log. -/
def verdictAt (r : RunResult) (k : Nat) : Option Verdict :=
  (r.log.get? k).map (fun a => a.verdict)

/-- Delay slept after the attempt at 0-based position `k` of the log. -/
def sleepAt (r : RunResult) (k : Nat) : Option ℚ :=
  (r.log.get? k).bind (fun a => a.sleepAfter)

/-- Python truthiness of an optional string: `None` and `""` are falsy. -/
def truthy : Option String → Bool
  | none => false
  | some s => !s.isEmpty

/-- Model of the SMTP transport globals `SMTP_HOST`, `SMTP_USER`,
`SMTP_PASS` of src/main.py. -/
structure SmtpConfig where
  host : Option String
  user : Option String
  password : Option String
deriving DecidableEq

/-- Model of `send_warning_email` (src/main.py lines 99-119): bail out with `False`
before any delivery attempt unless host, user, password and recipient are
all truthy; otherwise attempt delivery, whose success or raised exception
is modelled by the oracle `deliverOk`. -/
def send_warning_email (smtp : SmtpConfig) (toEmail : Option String)
    (deliverOk : Bool) : Bool :=
  if truthy smtp.host && truthy smtp.user && truthy smtp.password &&
      truthy toEmail then deliverOk
  else false

/-- Recipient resolution `email_to = req.email_to or DEFAULT_WARNING_TO`
(src/main.py line 156). -/
def chooseRecipient (reqTo defaultTo : Option String) : Option String :=
  if truthy reqTo then reqTo else defaultTo

/-- Body keyword scan as the spec words it: the three substrings
"ratelimit", "rate limit", "quota", case-insensitively. -/
def specRateKeyword (bodyStr : String) : Bool :=
  let lower := lowerStr bodyStr
  strContains lower "ratelimit" || strContains lower "rate limit" ||
    strContains lower "quota"

/-- Classification as the amended claim words it: 2xx is Success; otherwise
a status of 429 or a rate-limit keyword in the case-insensitive serialized
body gives RateLimited (the keyword scan runs for every non-2xx, non-429
status and takes precedence); otherwise 401/403 is AuthFailure; otherwise
5xx is ServerError; otherwise OtherFailure. -/
def classifyHttpAmended (status : Nat) (bodyStr : String) : Verdict :=
  if 200 ≤ status ∧ status < 300 then Verdict.success
  else if status = 429 ∨ specRateKeyword bodyStr then Verdict.rateLimited
  else if status = 401 ∨ status = 403 then Verdict.authFailure
  else if 500 ≤ status ∧ status < 600 then Verdict.serverError
  else Verdict.otherFailure

/-- Invariant satisfied by every recorded attempt of the walk: the emitter
is invoked exactly when the verdict is rateLimited, the key is in the
watch set and not in the snapshot (src/main.py line 208); the ledger mark
happens exactly when the emitter was invoked and reported success
(lines 215-217); a rateLimited, serverError or transportError attempt is
followed by the exponential backoff sleep of its attempt number
(lines 177, 221, 234); an authFailure attempt by the fixed 0.2 s sleep
(line 230). -/
def entryInv (cfg : Config) (em : Nat → Bool) (snap : List Nat)
    (a : AttemptLog) : Prop :=
  a.alerted = ((a.verdict == Verdict.rateLimited) &&
      decide (a.keyIdx ∈ cfg.watchSet) && !(decide (a.keyIdx ∈ snap))) ∧
  a.marked = (a.alerted && em a.keyIdx) ∧
  (a.verdict = Verdict.rateLimited ∨ a.verdict = Verdict.serverError ∨
      a.verdict = Verdict.transportError →
    a.sleepAfter = some (backoff cfg.baseBackoff a.attemptNo)) ∧
  (a.verdict = Verdict.authFailure → a.sleepAfter = some (1 / 5 : ℚ))

example : classifyHttp 204 "x" = Verdict.success := by decide
example : classifyHttp 429 "" = Verdict.rateLimited := by decide
example : classifyHttp 401 "nope" = Verdict.authFailure := by decide
example : classifyHttp 503 "oops" = Verdict.serverError := by decide
example : classifyHttp 404 "QuOtA exceeded" = Verdict.rateLimited := by decide
example : classifyHttp 404 "not found" = Verdict.otherFailure := by decide

example :
    (generate ⟨["k1"], [1], 3, 1⟩ (fun _ => RawOutcome.http 429 "")
      (fun _ => true) []).log.length = 1 := by decide

example :
    (generate ⟨["k1", "k2"], [], 30, 1⟩ (fun _ => RawOutcome.http 429 "")
      (fun _ => true) []).log.map (fun a => (a.keyIdx, a.attemptNo, a.verdict)) =
      [(1, 1, Verdict.rateLimited), (2, 2, Verdict.rateLimited)] := by decide

example :
    (generate ⟨["k1", "k2"], [], 30, 1⟩
      (fun i => if i = 1 then RawOutcome.http 429 "" else RawOutcome.http 200 "ok")
      (fun _ => true) []).result = DispatchResult.succeeded 2 "ok" := by decide

example :
    (generate ⟨["a", "b", "c", "d", "e"], [5, 8, 10], 30, 1⟩
      (fun _ => RawOutcome.http 429 "x") (fun _ => true) []).ledger = [5] := by decide

/-- A prefix of a longer needle: if `p ++ q` is a prefix of `l`, so is `p`. -/
theorem hasPrefixCL_of_append (p q l : List Char)
    (h : hasPrefixCL (p ++ q) l = true) : hasPrefixCL p l = true := by
  induction p generalizing l with
  | nil => simp [hasPrefixCL]
  | cons c cs ih =>
    cases l with
    | nil => simp [hasPrefixCL] at h
    | cons d ds =>
      simp only [List.cons_append, hasPrefixCL, Bool.and_eq_true] at h ⊢
      exact ⟨h.1, ih ds h.2⟩

/-- If `p ++ q` occurs as a substring, so does `p`. -/
theorem containsCL_of_append (l p q : List Char)
    (h : containsCL l (p ++ q) = true) : containsCL l p = true := by
  induction l with
  | nil =>
    simp only [containsCL, List.isEmpty_iff, List.append_eq_nil] at h ⊢
    exact h.1
  | cons c t ih =>
    simp only [containsCL, Bool.or_eq_true] at h ⊢
    rcases h with h | h
    · exact Or.inl (hasPrefixCL_of_append p q _ h)
    · exact Or.inr (ih h)

/-- The fourth keyword scanned by the code, "ratelimitexceeded", is
redundant: any body containing it also contains "ratelimit", so the
code's scan agrees with the spec's three-keyword scan. -/
theorem isRateLimitBody_eq_spec (b : String) :
    isRateLimitBody b = specRateKeyword b := by
  unfold isRateLimitBody specRateKeyword
  have hEA : strContains (lowerStr b) "ratelimitexceeded" = true →
      strContains (lowerStr b) "ratelimit" = true := by
    intro h
    have hd : ("ratelimitexceeded" : String).data =
        ("ratelimit" : String).data ++ ("exceeded" : String).data := by decide
    unfold strContains at h ⊢
    rw [hd] at h
    exact containsCL_of_append _ _ _ h
  cases hA : strContains (lowerStr b) "ratelimit"
  · cases hE : strContains (lowerStr b) "ratelimitexceeded"
    · simp [hA, hE]
    · exact absurd (hEA hE) (by simp [hA])
  · simp [hA]

/-- The key walk makes at most `maxRetries - att` further attempts. -/
theorem walk_log_length (cfg : Config) (o : Nat → RawOutcome) (em : Nat → Bool)
    (snap : List Nat) :
    ∀ (keys : List String) (idx att : Nat) (le : Option ErrInfo)
      (ledger : List Nat),
      (walk cfg o em snap keys idx att le ledger).log.length ≤
        cfg.maxRetries - att := by
  intro keys
  induction keys with
  | nil => intro idx att le ledger; simp [walk]
  | cons k rest ih =>
    intro idx att le ledger
    by_cases hb : cfg.maxRetries ≤ att
    · simp [walk, hb]
    · have hlt : att < cfg.maxRetries := Nat.lt_of_not_le hb
      cases ho : o idx with
      | transportFailure m =>
        simp only [walk, if_neg hb, ho, List.length_cons]
        have := ih (idx + 1) (att + 1) (some (ErrInfo.network m)) ledger
        omega
      | http s b =>
        cases hc : classifyHttp s b with
        | success => simp only [walk, if_neg hb, ho, hc, List.length_cons,
            List.length_nil]; omega
        | rateLimited =>
          simp only [walk, if_neg hb, ho, hc, List.length_cons]
          have := ih (idx + 1) (att + 1) (some (ErrInfo.rateLimit idx))
            (if (decide (idx ∈ cfg.watchSet) && !(decide (idx ∈ snap))) && em idx
              then mark_key_notified idx ledger else ledger)
          omega
        | authFailure =>
          simp only [walk, if_neg hb, ho, hc, List.length_cons]
          have := ih (idx + 1) (att + 1) (some (ErrInfo.httpStatus s b)) ledger
          omega
        | serverError =>
          simp only [walk, if_neg hb, ho, hc, List.length_cons]
          have := ih (idx + 1) (att + 1) (some (ErrInfo.httpStatus s b)) ledger
          omega
        | transportError => simp only [walk, if_neg hb, ho, hc,
            List.length_cons, List.length_nil]; omega
        | otherFailure => simp only [walk, if_neg hb, ho, hc,
            List.length_cons, List.length_nil]; omega

/-- Shape of the walk's log: the attempt recorded at 0-based position `k`
is against key index `idx + k` and is attempt number `att + 1 + k`;
the walk proceeds strictly forward through the pool, one attempt per key,
with the attempt counter in lockstep. -/
theorem walk_shape (cfg : Config) (o : Nat → RawOutcome) (em : Nat → Bool)
    (snap : List Nat) :
    ∀ (keys : List String) (idx att : Nat) (le : Option ErrInfo)
      (ledger : List Nat) (k : Nat) (a : AttemptLog),
      (walk cfg o em snap keys idx att le ledger).log.get? k = some a →
      a.keyIdx = idx + k ∧ a.attemptNo = att + 1 + k := by
  intro keys
  induction keys with
  | nil => intro idx att le ledger k a h; simp [walk] at h
  | cons key rest ih =>
    intro idx att le ledger k a h
    by_cases hb : cfg.maxRetries ≤ att
    · simp [walk, hb] at h
    · cases ho : o idx with
      | transportFailure m =>
        simp only [walk, if_neg hb, ho] at h
        cases k with
        | zero => simp at h; simp [← h]
        | succ k2 =>
          simp only [List.get?_cons_succ] at h
          have := ih (idx + 1) (att + 1) (some (ErrInfo.network m)) ledger k2 a h
          omega
      | http s b =>
        cases hc : classifyHttp s b with
        | success =>
          simp only [walk, if_neg hb, ho, hc] at h
          cases k with
          | zero => simp at h; simp [← h]
          | succ k2 => simp at h
        | rateLimited =>
          simp only [walk, if_neg hb, ho, hc] at h
          cases k with
          | zero => simp at h; simp [← h]
          | succ k2 =>
            simp only [List.get?_cons_succ] at h
            have := ih (idx + 1) (att + 1) (some (ErrInfo.rateLimit idx)) _ k2 a h
            omega
        | authFailure =>
          simp only [walk, if_neg hb, ho, hc] at h
          cases k with
          | zero => simp at h; simp [← h]
          | succ k2 =>
            simp only [List.get?_cons_succ] at h
            have := ih (idx + 1) (att + 1) (some (ErrInfo.httpStatus s b)) ledger k2 a h
            omega
        | serverError =>
          simp only [walk, if_neg hb, ho, hc] at h
          cases k with
          | zero => simp at h; simp [← h]
          | succ k2 =>
            simp only [List.get?_cons_succ] at h
            have := ih (idx + 1) (att + 1) (some (ErrInfo.httpStatus s b)) ledger k2 a h
            omega
        | transportError =>
          simp only [walk, if_neg hb, ho, hc] at h
          cases k with
          | zero => simp at h; simp [← h]
          | succ k2 => simp at h
        | otherFailure =>
          simp only [walk, if_neg hb, ho, hc] at h
          cases k with
          | zero => simp at h; simp [← h]
          | succ k2 => simp at h

/-- Every entry of the walk's log satisfies `entryInv`. -/
theorem walk_entry (cfg : Config) (o : Nat → RawOutcome) (em : Nat → Bool)
    (snap : List Nat) :
    ∀ (keys : List String) (idx att : Nat) (le : Option ErrInfo)
      (ledger : List Nat) (a : AttemptLog),
      a ∈ (walk cfg o em snap keys idx att le ledger).log →
      entryInv cfg em snap a := by
  intro keys
  induction keys with
  | nil => intro idx att le ledger a h; simp [walk] at h
  | cons key rest ih =>
    intro idx att le ledger a h
    by_cases hb : cfg.maxRetries ≤ att
    · simp [walk, hb] at h
    · cases ho : o idx with
      | transportFailure m =>
        simp only [walk, if_neg hb, ho, List.mem_cons] at h
        rcases h with h | h
        · subst h; simp [entryInv]
        · exact ih (idx + 1) (att + 1) _ _ a h
      | http s b =>
        cases hc : classifyHttp s b with
        | success =>
          simp only [walk, if_neg hb, ho, hc, List.mem_cons,
            List.not_mem_nil, or_false] at h
          subst h; simp [entryInv]
        | rateLimited =>
          simp only [walk, if_neg hb, ho, hc, List.mem_cons] at h
          rcases h with h | h
          · subst h
            constructor
            · simp [Bool.and_assoc]
            · refine ⟨rfl, fun _ => rfl, fun hv => ?_⟩
              simp at hv
          · exact ih (idx + 1) (att + 1) _ _ a h
        | authFailure =>
          simp only [walk, if_neg hb, ho, hc, List.mem_cons] at h
          rcases h with h | h
          · subst h; simp [entryInv]
          · exact ih (idx + 1) (att + 1) _ _ a h
        | serverError =>
          simp only [walk, if_neg hb, ho, hc, List.mem_cons] at h
          rcases h with h | h
          · subst h; simp [entryInv]
          · exact ih (idx + 1) (att + 1) _ _ a h
        | transportError =>
          simp only [walk, if_neg hb, ho, hc, List.mem_cons,
            List.not_mem_nil, or_false] at h
          subst h; simp [entryInv]
        | otherFailure =>
          simp only [walk, if_neg hb, ho, hc, List.mem_cons,
            List.not_mem_nil, or_false] at h
          subst h; simp [entryInv]

/-- Ledger membership after the walk: an index is in the final table iff it
was there before the walk or some attempt marked it. -/
theorem walk_ledger_mem (cfg : Config) (o : Nat → RawOutcome) (em : Nat → Bool)
    (snap : List Nat) :
    ∀ (keys : List String) (idx att : Nat) (le : Option ErrInfo)
      (ledger : List Nat) (j : Nat),
      j ∈ (walk cfg o em snap keys idx att le ledger).ledger ↔
        (j ∈ ledger ∨ ∃ a ∈ (walk cfg o em snap keys idx att le ledger).log,
          a.marked = true ∧ a.keyIdx = j) := by
  intro keys
  induction keys with
  | nil => intro idx att le ledger j; simp [walk]
  | cons key rest ih =>
    intro idx att le ledger j
    by_cases hb : cfg.maxRetries ≤ att
    · simp [walk, hb]
    · cases ho : o idx with
      | transportFailure m =>
        simp only [walk, if_neg hb, ho, List.mem_cons]
        rw [ih]
        constructor
        · rintro (hj | ⟨a, ha, hm, hk⟩)
          · exact Or.inl hj
          · exact Or.inr ⟨a, Or.inr ha, hm, hk⟩
        · rintro (hj | ⟨a, ha | ha, hm, hk⟩)
          · exact Or.inl hj
          · subst ha; simp at hm
          · exact Or.inr ⟨a, ha, hm, hk⟩
      | http s b =>
        cases hc : classifyHttp s b with
        | success =>
          simp only [walk, if_neg hb, ho, hc]
          simp
        | rateLimited =>
          simp only [walk, if_neg hb, ho, hc, List.mem_cons]
          rw [ih]
          constructor
          · rintro (hj | ⟨a, ha, hm, hk⟩)
            · by_cases hs : (decide (idx ∈ cfg.watchSet) &&
                  !(decide (idx ∈ snap))) && em idx
              · rw [if_pos hs] at hj
                unfold mark_key_notified at hj
                by_cases hmem : idx ∈ ledger
                · rw [if_pos hmem] at hj; exact Or.inl hj
                · rw [if_neg hmem] at hj
                  rcases List.mem_cons.mp hj with hj | hj
                  · exact Or.inr ⟨⟨idx, att + 1, Verdict.rateLimited,
                      decide (idx ∈ cfg.watchSet) && !(decide (idx ∈ snap)),
                      (decide (idx ∈ cfg.watchSet) && !(decide (idx ∈ snap))) && em idx,
                      some (backoff cfg.baseBackoff (att + 1))⟩,
                      Or.inl rfl, hs, hj.symm⟩
                  · exact Or.inl hj
              · rw [if_neg hs] at hj; exact Or.inl hj
            · exact Or.inr ⟨a, Or.inr ha, hm, hk⟩
          · rintro (hj | ⟨a, ha | ha, hm, hk⟩)
            · by_cases hs : (decide (idx ∈ cfg.watchSet) &&
                  !(decide (idx ∈ snap))) && em idx
              · rw [if_pos hs]
                unfold mark_key_notified
                by_cases hmem : idx ∈ ledger
                · rw [if_pos hmem]; exact Or.inl hj
                · rw [if_neg hmem]; exact Or.inl (List.mem_cons_of_mem _ hj)
              · rw [if_neg hs]; exact Or.inl hj
            · subst ha
              simp only at hm hk
              rw [if_pos hm]
              refine Or.inl ?_
              unfold mark_key_notified
              by_cases hmem : idx ∈ ledger
              · rw [if_pos hmem]; exact hk ▸ hmem
              · rw [if_neg hmem]; exact hk ▸ List.mem_cons_self idx ledger
            · exact Or.inr ⟨a, ha, hm, hk⟩
        | authFailure =>
          simp only [walk, if_neg hb, ho, hc, List.mem_cons]
          rw [ih]
          constructor
          · rintro (hj | ⟨a, ha, hm, hk⟩)
            · exact Or.inl hj
            · exact Or.inr ⟨a, Or.inr ha, hm, hk⟩
          · rintro (hj | ⟨a, ha | ha, hm, hk⟩)
            · exact Or.inl hj
            · subst ha; simp at hm
            · exact Or.inr ⟨a, ha, hm, hk⟩
        | serverError =>
          simp only [walk, if_neg hb, ho, hc, List.mem_cons]
          rw [ih]
          constructor
          · rintro (hj | ⟨a, ha, hm, hk⟩)
            · exact Or.inl hj
            · exact Or.inr ⟨a, Or.inr ha, hm, hk⟩
          · rintro (hj | ⟨a, ha | ha, hm, hk⟩)
            · exact Or.inl hj
            · subst ha; simp at hm
            · exact Or.inr ⟨a, ha, hm, hk⟩
        | transportError =>
          simp only [walk, if_neg hb, ho, hc]
          simp
        | otherFailure =>
          simp only [walk, if_neg hb, ho, hc]
          simp

/-- Every attempt in the walk's log is against a key index at or beyond the
current position: the walk never revisits earlier keys. -/
theorem walk_keyIdx_ge (cfg : Config) (o : Nat → RawOutcome) (em : Nat → Bool)
    (snap : List Nat) (keys : List String) (idx att : Nat)
    (le : Option ErrInfo) (ledger : List Nat) (a : AttemptLog)
    (ha : a ∈ (walk cfg o em snap keys idx att le ledger).log) :
    idx ≤ a.keyIdx := by
  rcases List.get?_of_mem ha with ⟨k, hk⟩
  have := walk_shape cfg o em snap keys idx att le ledger k a hk
  omega

/-- Pointwise implication between filters bounds their lengths. -/
theorem length_filter_imp {α : Type} (p q : α → Bool)
    (h : ∀ a, p a = true → q a = true) :
    ∀ l : List α, (l.filter p).length ≤ (l.filter q).length := by
  intro l
  induction l with
  | nil => simp
  | cons x t ih =>
    by_cases hp : p x
    · simp only [List.filter_cons, hp, h x hp, if_pos, List.length_cons]
      omega
    · simp only [List.filter_cons, hp]
      by_cases hq : q x
      · simp only [hq, if_pos, if_neg, List.length_cons]
        simp only [Bool.false_eq_true, if_false]
        omega
      · simp only [hq, Bool.false_eq_true, if_false]
        exact ih

/-- At most one attempt of a walk targets any given key index. -/
theorem keyfilter_le_one_of_shape (l : List AttemptLog) (base i : Nat)
    (h : ∀ k a, l.get? k = some a → a.keyIdx = base + k) :
    (l.filter (fun a => a.keyIdx == i)).length ≤ 1 := by
  induction l generalizing base with
  | nil => simp
  | cons x t ih =>
    have ht : ∀ k a, t.get? k = some a → a.keyIdx = (base + 1) + k := by
      intro k a hk
      have := h (k + 1) a (by simpa using hk)
      omega
    by_cases hi : (x.keyIdx == i) = true
    · have htf : t.filter (fun a => a.keyIdx == i) = [] := by
        rw [List.filter_eq_nil_iff]
        intro a ha
        rcases List.get?_of_mem ha with ⟨k, hk⟩
        have hx : x.keyIdx = base := by have := h 0 x rfl; omega
        have hak := ht k a hk
        simp only [beq_iff_eq] at hi ⊢
        omega
      simp [List.filter_cons, hi, htf]
    · simp only [List.filter_cons, hi, Bool.false_eq_true, if_false]
      exact ih (base + 1) ht

/-- Corollary of the shape lemma: the walk attempts each key index at most
once. -/
theorem walk_keyfilter_le_one (cfg : Config) (o : Nat → RawOutcome)
    (em : Nat → Bool) (snap : List Nat) (keys : List String) (idx att : Nat)
    (le : Option ErrInfo) (ledger : List Nat) (i : Nat) :
    ((walk cfg o em snap keys idx att le ledger).log.filter
      (fun a => a.keyIdx == i)).length ≤ 1 :=
  keyfilter_le_one_of_shape _ idx i
    (fun k a hk => (walk_shape cfg o em snap keys idx att le ledger k a hk).1)

/-- Terminal attempts: a success entry at position `k` means the walk
returned immediately with that key's payload and nothing after `k` was
attempted; an otherFailure entry likewise ends the log and the walk is
exhausted. -/
theorem walk_terminal (cfg : Config) (o : Nat → RawOutcome) (em : Nat → Bool)
    (snap : List Nat) :
    ∀ (keys : List String) (idx att : Nat) (le : Option ErrInfo)
      (ledger : List Nat) (k : Nat) (a : AttemptLog),
      (walk cfg o em snap keys idx att le ledger).log.get? k = some a →
      (a.verdict = Verdict.success →
        (walk cfg o em snap keys idx att le ledger).log.length = k + 1 ∧
        ∃ s b, o a.keyIdx = RawOutcome.http s b ∧
          classifyHttp s b = Verdict.success ∧
          (walk cfg o em snap keys idx att le ledger).result =
            DispatchResult.succeeded a.keyIdx b) ∧
      (a.verdict = Verdict.otherFailure →
        (walk cfg o em snap keys idx att le ledger).log.length = k + 1 ∧
        ∃ s b, o a.keyIdx = RawOutcome.http s b ∧
          (walk cfg o em snap keys idx att le ledger).result =
            DispatchResult.exhausted (some (ErrInfo.httpStatus s b))) := by
  intro keys
  induction keys with
  | nil => intro idx att le ledger k a h; simp [walk] at h
  | cons key rest ih =>
    intro idx att le ledger k a h
    by_cases hb : cfg.maxRetries ≤ att
    · simp [walk, hb] at h
    · cases ho : o idx with
      | transportFailure m =>
        simp only [walk, if_neg hb, ho] at h ⊢
        cases k with
        | zero =>
          simp only [List.get?_cons_zero, Option.some.injEq] at h
          constructor
          · intro hv; rw [← h] at hv; simp at hv
          · intro hv; rw [← h] at hv; simp at hv
        | succ k2 =>
          simp only [List.get?_cons_succ] at h
          have := ih (idx + 1) (att + 1) (some (ErrInfo.network m)) ledger k2 a h
          simp only [List.length_cons]
          exact ⟨fun hv => ⟨by rw [(this.1 hv).1], (this.1 hv).2⟩,
            fun hv => ⟨by rw [(this.2 hv).1], (this.2 hv).2⟩⟩
      | http s b =>
        cases hc : classifyHttp s b with
        | success =>
          simp only [walk, if_neg hb, ho, hc] at h ⊢
          cases k with
          | zero =>
            simp only [List.get?_cons_zero, Option.some.injEq] at h
            subst h
            refine ⟨fun _ => ⟨rfl, s, b, ho, hc, rfl⟩, fun hv => ?_⟩
            simp at hv
          | succ k2 => simp at h
        | rateLimited =>
          simp only [walk, if_neg hb, ho, hc] at h ⊢
          cases k with
          | zero =>
            simp only [List.get?_cons_zero, Option.some.injEq] at h
            constructor
            · intro hv; rw [← h] at hv; simp at hv
            · intro hv; rw [← h] at hv; simp at hv
          | succ k2 =>
            simp only [List.get?_cons_succ] at h
            have := ih (idx + 1) (att + 1) (some (ErrInfo.rateLimit idx)) _ k2 a h
            simp only [List.length_cons]
            exact ⟨fun hv => ⟨by rw [(this.1 hv).1], (this.1 hv).2⟩,
              fun hv => ⟨by rw [(this.2 hv).1], (this.2 hv).2⟩⟩
        | authFailure =>
          simp only [walk, if_neg hb, ho, hc] at h ⊢
          cases k with
          | zero =>
            simp only [List.get?_cons_zero, Option.some.injEq] at h
            constructor
            · intro hv; rw [← h] at hv; simp at hv
            · intro hv; rw [← h] at hv; simp at hv
          | succ k2 =>
            simp only [List.get?_cons_succ] at h
            have := ih (idx + 1) (att + 1) (some (ErrInfo.httpStatus s b)) ledger k2 a h
            simp only [List.length_cons]
            exact ⟨fun hv => ⟨by rw [(this.1 hv).1], (this.1 hv).2⟩,
              fun hv => ⟨by rw [(this.2 hv).1], (this.2 hv).2⟩⟩
        | serverError =>
          simp only [walk, if_neg hb, ho, hc] at h ⊢
          cases k with
          | zero =>
            simp only [List.get?_cons_zero, Option.some.injEq] at h
            constructor
            · intro hv; rw [← h] at hv; simp at hv
            · intro hv; rw [← h] at hv; simp at hv
          | succ k2 =>
            simp only [List.get?_cons_succ] at h
            have := ih (idx + 1) (att + 1) (some (ErrInfo.httpStatus s b)) ledger k2 a h
            simp only [List.length_cons]
            exact ⟨fun hv => ⟨by rw [(this.1 hv).1], (this.1 hv).2⟩,
              fun hv => ⟨by rw [(this.2 hv).1], (this.2 hv).2⟩⟩
        | transportError =>
          simp only [walk, if_neg hb, ho, hc] at h ⊢
          cases k with
          | zero =>
            simp only [List.get?_cons_zero, Option.some.injEq] at h
            subst h
            refine ⟨fun hv => by simp at hv, fun _ => ⟨rfl, s, b, ho, rfl⟩⟩
          | succ k2 => simp at h
        | otherFailure =>
          simp only [walk, if_neg hb, ho, hc] at h ⊢
          cases k with
          | zero =>
            simp only [List.get?_cons_zero, Option.some.injEq] at h
            subst h
            refine ⟨fun hv => by simp at hv, fun _ => ⟨rfl, s, b, ho, rfl⟩⟩
          | succ k2 => simp at h

/-- The emitter's outcomes and the ledger contents never influence the
walk's control flow: the result and the whole log apart from the `marked`
flag are the same for any two emitters and any two starting ledgers
(the snapshot `snap` being fixed). Alert delivery failures therefore never
abort or alter the key walk. -/
theorem walk_em_indep (cfg : Config) (o : Nat → RawOutcome)
    (em1 em2 : Nat → Bool) (snap : List Nat) :
    ∀ (keys : List String) (idx att : Nat) (le : Option ErrInfo)
      (L1 L2 : List Nat),
      (walk cfg o em1 snap keys idx att le L1).result =
        (walk cfg o em2 snap keys idx att le L2).result ∧
      (walk cfg o em1 snap keys idx att le L1).log.map
          (fun a => (a.keyIdx, a.attemptNo, a.verdict, a.alerted, a.sleepAfter)) =
        (walk cfg o em2 snap keys idx att le L2).log.map
          (fun a => (a.keyIdx, a.attemptNo, a.verdict, a.alerted, a.sleepAfter)) := by
  intro keys
  induction keys with
  | nil => intro idx att le L1 L2; simp [walk]
  | cons key rest ih =>
    intro idx att le L1 L2
    by_cases hb : cfg.maxRetries ≤ att
    · simp [walk, hb]
    · cases ho : o idx with
      | transportFailure m =>
        simp only [walk, if_neg hb, ho, List.map_cons]
        have := ih (idx + 1) (att + 1) (some (ErrInfo.network m)) L1 L2
        exact ⟨this.1, by rw [this.2]⟩
      | http s b =>
        cases hc : classifyHttp s b with
        | success => simp [walk, hb, ho, hc]
        | rateLimited =>
          simp only [walk, if_neg hb, ho, hc, List.map_cons]
          have := ih (idx + 1) (att + 1) (some (ErrInfo.rateLimit idx))
            (if (decide (idx ∈ cfg.watchSet) && !(decide (idx ∈ snap))) && em1 idx
              then mark_key_notified idx L1 else L1)
            (if (decide (idx ∈ cfg.watchSet) && !(decide (idx ∈ snap))) && em2 idx
              then mark_key_notified idx L2 else L2)
          exact ⟨this.1, by rw [this.2]⟩
        | authFailure =>
          simp only [walk, if_neg hb, ho, hc, List.map_cons]
          have := ih (idx + 1) (att + 1) (some (ErrInfo.httpStatus s b)) L1 L2
          exact ⟨this.1, by rw [this.2]⟩
        | serverError =>
          simp only [walk, if_neg hb, ho, hc, List.map_cons]
          have := ih (idx + 1) (att + 1) (some (ErrInfo.httpStatus s b)) L1 L2
          exact ⟨this.1, by rw [this.2]⟩
        | transportError => simp [walk, hb, ho, hc]
        | otherFailure => simp [walk, hb, ho, hc]

/-- Specialization of `walk_entry` to `generate`; the snapshot read at
src/main.py line 162 is the starting ledger. -/
theorem generate_entry (cfg : Config) (o : Nat → RawOutcome) (em : Nat → Bool)
    (L : List Nat) (a : AttemptLog) (ha : a ∈ (generate cfg o em L).log) :
    entryInv cfg em L a := by
  unfold generate at ha
  by_cases h : cfg.keys.isEmpty
  · rw [if_pos h] at ha; simp at ha
  · rw [if_neg h] at ha
    exact walk_entry cfg o em L cfg.keys 1 0 none L a ha

/-- Shape of a `generate` log: position `k` holds the attempt against key
index `k + 1`, which is attempt number `k + 1`. -/
theorem generate_shape (cfg : Config) (o : Nat → RawOutcome) (em : Nat → Bool)
    (L : List Nat) (k : Nat) (a : AttemptLog)
    (h : (generate cfg o em L).log.get? k = some a) :
    a.keyIdx = k + 1 ∧ a.attemptNo = k + 1 := by
  unfold generate at h
  by_cases he : cfg.keys.isEmpty
  · rw [if_pos he] at h; simp at h
  · rw [if_neg he] at h
    have := walk_shape cfg o em L cfg.keys 1 0 none L k a h
    omega

/-- Ledger membership after a `generate` run. -/
theorem generate_ledger_mem (cfg : Config) (o : Nat → RawOutcome)
    (em : Nat → Bool) (L : List Nat) (j : Nat) :
    j ∈ (generate cfg o em L).ledger ↔
      (j ∈ L ∨ ∃ a ∈ (generate cfg o em L).log,
        a.marked = true ∧ a.keyIdx = j) := by
  unfold generate
  by_cases he : cfg.keys.isEmpty
  · rw [if_pos he]; simp
  · rw [if_neg he]
    exact walk_ledger_mem cfg o em L cfg.keys 1 0 none L j

/-- A `generate` run attempts each key index at most once. -/
theorem generate_keyfilter_le_one (cfg : Config) (o : Nat → RawOutcome)
    (em : Nat → Bool) (L : List Nat) (i : Nat) :
    ((generate cfg o em L).log.filter (fun a => a.keyIdx == i)).length ≤ 1 := by
  unfold generate
  by_cases he : cfg.keys.isEmpty
  · rw [if_pos he]; simp
  · rw [if_neg he]
    exact walk_keyfilter_le_one cfg o em L cfg.keys 1 0 none L i

/-- If a watched, not-yet-notified key index is attempted and rate-limited
in a run, the emitter is invoked for it exactly once during that run. -/
theorem generate_alert_once (cfg : Config) (o : Nat → RawOutcome)
    (em : Nat → Bool) (L : List Nat) (i : Nat)
    (hw : i ∈ cfg.watchSet) (hs : i ∉ L)
    (hatt : hasAttempt (generate cfg o em L) i Verdict.rateLimited = true) :
    alertCount (generate cfg o em L) i = 1 := by
  unfold hasAttempt at hatt
  rw [List.any_eq_true] at hatt
  rcases hatt with ⟨a, ha, hpa⟩
  simp only [Bool.and_eq_true, beq_iff_eq] at hpa
  have hinv := generate_entry cfg o em L a ha
  have halert : a.alerted = true := by
    rw [hinv.1, hpa.2, hpa.1]
    simp [hw, hs]
  have hmemf : a ∈ (generate cfg o em L).log.filter
      (fun a => (a.keyIdx == i) && a.alerted) := by
    rw [List.mem_filter]
    exact ⟨ha, by simp [hpa.1, halert]⟩
  have hge : 1 ≤ alertCount (generate cfg o em L) i := by
    unfold alertCount
    have := List.length_pos.mpr (List.ne_nil_of_mem hmemf)
    omega
  have hle : alertCount (generate cfg o em L) i ≤ 1 := by
    unfold alertCount
    refine le_trans (length_filter_imp _ (fun a => a.keyIdx == i) ?_ _)
      (generate_keyfilter_le_one cfg o em L i)
    intro x hx
    exact (Bool.and_eq_true _ _).mp hx |>.1
  omega

/-- If a key index is already in the snapshot ledger when the run starts,
the emitter is never invoked for it during the run. -/
theorem generate_alert_none (cfg : Config) (o : Nat → RawOutcome)
    (em : Nat → Bool) (L : List Nat) (i : Nat) (hs : i ∈ L) :
    alertCount (generate cfg o em L) i = 0 := by
  unfold alertCount
  rw [List.length_eq_zero, List.filter_eq_nil_iff]
  intro a ha hpa
  simp only [Bool.and_eq_true, beq_iff_eq] at hpa
  have hinv := generate_entry cfg o em L a ha
  have halt : ((a.verdict == Verdict.rateLimited) &&
      decide (a.keyIdx ∈ cfg.watchSet) && !(decide (a.keyIdx ∈ L))) = true := by
    rw [← hinv.1]; exact hpa.2
  simp only [Bool.and_eq_true, Bool.not_eq_true', decide_eq_false_iff_not,
    decide_eq_true_eq, beq_iff_eq] at halt
  exact halt.2 (hpa.1 ▸ hs)

/-- When the emitter always reports failure, the walk never touches the
ledger. -/
theorem walk_ledger_eq_of_em_false (cfg : Config) (o : Nat → RawOutcome)
    (em : Nat → Bool) (snap : List Nat) (hem : ∀ i, em i = false) :
    ∀ (keys : List String) (idx att : Nat) (le : Option ErrInfo)
      (ledger : List Nat),
      (walk cfg o em snap keys idx att le ledger).ledger = ledger := by
  intro keys
  induction keys with
  | nil => intro idx att le ledger; simp [walk]
  | cons key rest ih =>
    intro idx att le ledger
    by_cases hb : cfg.maxRetries ≤ att
    · simp [walk, hb]
    · cases ho : o idx with
      | transportFailure m =>
        simp only [walk, if_neg hb, ho]
        exact ih (idx + 1) (att + 1) _ _
      | http s b =>
        cases hc : classifyHttp s b with
        | success => simp [walk, hb, ho, hc]
        | rateLimited =>
          simp only [walk, if_neg hb, ho, hc, hem idx, Bool.and_false,
            Bool.false_eq_true, if_false]
          exact ih (idx + 1) (att + 1) _ _
        | authFailure =>
          simp only [walk, if_neg hb, ho, hc]
          exact ih (idx + 1) (att + 1) _ _
        | serverError =>
          simp only [walk, if_neg hb, ho, hc]
          exact ih (idx + 1) (att + 1) _ _
        | transportError => simp [walk, hb, ho, hc]
        | otherFailure => simp [walk, hb, ho, hc]

/-- C1 counterexample: the claim says a 401 status is classified
AuthFailure regardless of body content, but the code's rate-limit test
(status 429 OR body keyword scan) runs first, so a 401 response whose body
contains "quota" is classified RateLimited, not AuthFailure. -/
theorem C1_counterexample_401_quota :
    classifyHttp 401 "quota" = Verdict.rateLimited ∧
      Verdict.rateLimited ≠ Verdict.authFailure := by
  constructor
  · decide
  · decide

/-- C1 amended: for every HTTP response attempt, classification follows
this precedence: status in [200,300) is Success; otherwise, if the status
is 429 OR the serialized body contains (case-insensitively) one of
"ratelimit", "rate limit", "quota", the verdict is RateLimited — the body
scan runs for every non-2xx, non-429 status, including 401/403 and 5xx,
and takes precedence over them; otherwise status in {401,403} is
AuthFailure; otherwise status in [500,600) is ServerError; otherwise
OtherFailure. -/
theorem C1_amended_classification_precedence (status : Nat) (bodyStr : String) :
    classifyHttp status bodyStr = classifyHttpAmended status bodyStr := by
  unfold classifyHttp classifyHttpAmended
  rw [isRateLimitBody_eq_spec]

/-- C3 counterexample: with a single-key pool, WatchSet = {1}, the key
always answering 429 and a retry budget of 3, the code makes exactly one
attempt, not the three the claim states: the `for` loop walks the pool
once and never wraps around, so a second attempt against the same key is
impossible. -/
theorem C3_counterexample_single_key_attempts :
    (generate ⟨["k1"], [1], 3, 1⟩ (fun _ => RawOutcome.http 429 "")
      (fun _ => true) []).log.length = 1 ∧
    (generate ⟨["k1"], [1], 3, 1⟩ (fun _ => RawOutcome.http 429 "")
      (fun _ => true) []).log.length ≠ 3 := by
  constructor
  · decide
  · decide

/-- C3 amended: pool = [k1], WatchSet = {1}, k1 always 429, budget 3:
exactly one alert attempt occurs and the walk ends in the Exhausted
terminal state after exactly ONE attempt against the single key — the walk
traverses the pool once without wrapping, so the budget of 3 is never
reached. -/
theorem C3_amended_single_key_scenario :
    (generate ⟨["k1"], [1], 3, 1⟩ (fun _ => RawOutcome.http 429 "")
      (fun _ => true) []).log.length = 1 ∧
    alertCount (generate ⟨["k1"], [1], 3, 1⟩ (fun _ => RawOutcome.http 429 "")
      (fun _ => true) []) 1 = 1 ∧
    (generate ⟨["k1"], [1], 3, 1⟩ (fun _ => RawOutcome.http 429 "")
      (fun _ => true) []).result =
      DispatchResult.exhausted (some (ErrInfo.rateLimit 1)) := by
  refine ⟨by decide, by decide, by decide⟩

/-- C5: for every request, the total number of upstream attempts made
never exceeds the configured retry budget, regardless of pool size or
outcome sequence. -/
theorem C5_retry_budget_respected (cfg : Config) (o : Nat → RawOutcome)
    (em : Nat → Bool) (L : List Nat) :
    (generate cfg o em L).log.length ≤ cfg.maxRetries := by
  unfold generate
  by_cases he : cfg.keys.isEmpty
  · rw [if_pos he]; simp
  · rw [if_neg he]
    have := walk_log_length cfg o em L cfg.keys 1 0 none L
    omega

/-- C7: a request against an empty key pool yields the distinguishable
NotConfigured failure (HTTP 500 "No Gemini API keys configured."), with an
empty attempt log — zero upstream network calls — and an untouched
ledger. -/
theorem C7_empty_pool_not_configured (watch : List Nat) (maxR : Nat)
    (base : ℚ) (o : Nat → RawOutcome) (em : Nat → Bool) (L : List Nat) :
    generate ⟨[], watch, maxR, base⟩ o em L =
      ⟨DispatchResult.notConfigured, [], L⟩ := rfl

/-- C4 counterexample: with base backoff 1, both keys rate-limited, the
delay slept before attempt 2 (the delay recorded after attempt 1) is
`1`, while the claim's formula `base * 1.5^(n-1)` at n = 2 demands `3/2`:
the code sleeps `base * 1.5^(total_attempts - 1)` AFTER attempt
`total_attempts`, so the delay before attempt n is `base * 1.5^(n-2)`. -/
theorem C4_counterexample_backoff_off_by_one :
    sleepAt (generate ⟨["a", "b"], [], 30, 1⟩ (fun _ => RawOutcome.http 429 "")
      (fun _ => false) []) 0 = some 1 ∧
    verdictAt (generate ⟨["a", "b"], [], 30, 1⟩ (fun _ => RawOutcome.http 429 "")
      (fun _ => false) []) 1 = some Verdict.rateLimited ∧
    (1 : ℚ) ≠ 1 * (3 / 2 : ℚ) ^ (2 - 1) := by
  refine ⟨?_, by decide, by norm_num⟩
  have h : sleepAt (generate ⟨["a", "b"], [], 30, 1⟩
      (fun _ => RawOutcome.http 429 "") (fun _ => false) []) 0 =
      some (backoff 1 1) := rfl
  rw [h]
  unfold backoff
  norm_num

/-- C4 amended: the backoff delay recorded after the attempt at 0-based
log position `k` (attempt number k+1, which is the delay slept before
attempt k+2) equals `base * 1.5^k` — that is, `base * 1.5^(n-1)` for the
1-based number n of attempts made so far, equivalently `base * 1.5^(n-2)`
before attempt n — for rate-limited, server-error and transport-error
outcomes, independent of which key produced the failure. -/
theorem C4_amended_backoff_delay (cfg : Config) (o : Nat → RawOutcome)
    (em : Nat → Bool) (L : List Nat) (k : Nat) (v : Verdict)
    (h1 : verdictAt (generate cfg o em L) k = some v)
    (h2 : v = Verdict.rateLimited ∨ v = Verdict.serverError ∨
      v = Verdict.transportError) :
    sleepAt (generate cfg o em L) k =
      some (cfg.baseBackoff * (3 / 2 : ℚ) ^ k) := by
  unfold verdictAt at h1
  cases hg : (generate cfg o em L).log.get? k with
  | none => rw [hg] at h1; simp at h1
  | some a =>
    rw [hg] at h1
    simp only [Option.map_some', Option.some.injEq] at h1
    have hmem : a ∈ (generate cfg o em L).log := List.get?_mem hg
    have hinv := generate_entry cfg o em L a hmem
    have hshape := generate_shape cfg o em L k a hg
    have hsleep := hinv.2.2.1 (by rw [h1]; exact h2)
    unfold sleepAt
    rw [hg]
    simp only [Option.some_bind]
    rw [hsleep, hshape.2]
    unfold backoff
    norm_num

/-- C4 witness: a concrete server-error attempt at position 0 of a run
with base backoff 1 sleeps `1 * 1.5^0`. -/
theorem C4_witness :
    verdictAt (generate ⟨["a", "b"], [], 30, 1⟩
      (fun _ => RawOutcome.http 503 "oops") (fun _ => false) []) 0 =
      some Verdict.serverError ∧
    sleepAt (generate ⟨["a", "b"], [], 30, 1⟩
      (fun _ => RawOutcome.http 503 "oops") (fun _ => false) []) 0 =
      some ((1 : ℚ) * (3 / 2 : ℚ) ^ (0 : ℕ)) :=
  ⟨by decide,
    C4_amended_backoff_delay ⟨["a", "b"], [], 30, 1⟩
      (fun _ => RawOutcome.http 503 "oops") (fun _ => false) [] 0
      Verdict.serverError (by decide) (Or.inr (Or.inl rfl))⟩

/-- C6: an OtherFailure classification on the attempt at log position `k`
(against key index k+1) terminates the walk immediately: the log ends at
that attempt, the run is Exhausted, and no key beyond index k+1 is ever
attempted. -/
theorem C6_other_failure_aborts_walk (cfg : Config) (o : Nat → RawOutcome)
    (em : Nat → Bool) (L : List Nat) (k : Nat)
    (h : verdictAt (generate cfg o em L) k = some Verdict.otherFailure) :
    (generate cfg o em L).log.length = k + 1 ∧
    (∃ e, (generate cfg o em L).result = DispatchResult.exhausted e) ∧
    ∀ a2 ∈ (generate cfg o em L).log, a2.keyIdx ≤ k + 1 := by
  unfold verdictAt at h
  cases hg : (generate cfg o em L).log.get? k with
  | none => rw [hg] at h; simp at h
  | some a =>
    rw [hg] at h
    simp only [Option.map_some', Option.some.injEq] at h
    unfold generate at hg ⊢
    by_cases he : cfg.keys.isEmpty
    · rw [if_pos he] at hg; simp at hg
    · rw [if_neg he] at hg ⊢
      have hterm := (walk_terminal cfg o em L cfg.keys 1 0 none L k a hg).2 h
      rcases hterm with ⟨hlen, s, b, hob, hres⟩
      refine ⟨hlen, ⟨some (ErrInfo.httpStatus s b), hres⟩, ?_⟩
      intro a2 ha2
      rcases List.get?_of_mem ha2 with ⟨k2, hk2⟩
      have hs2 := walk_shape cfg o em L cfg.keys 1 0 none L k2 a2 hk2
      have hk2lt : k2 < (walk cfg o em L cfg.keys 1 0 none L).log.length := by
        by_contra hh
        rw [List.get?_eq_none.mpr (Nat.le_of_not_lt hh)] at hk2
        exact Option.noConfusion hk2
      omega

/-- C6 witness: a 404 "not found" response on the first key aborts the
walk at once with two keys still unattempted. -/
theorem C6_witness :
    verdictAt (generate ⟨["a", "b", "c"], [], 30, 1⟩
      (fun _ => RawOutcome.http 404 "not found") (fun _ => true) []) 0 =
      some Verdict.otherFailure ∧
    (generate ⟨["a", "b", "c"], [], 30, 1⟩
      (fun _ => RawOutcome.http 404 "not found") (fun _ => true) []).log.length
      = 0 + 1 ∧
    (∃ e, (generate ⟨["a", "b", "c"], [], 30, 1⟩
      (fun _ => RawOutcome.http 404 "not found") (fun _ => true) []).result =
      DispatchResult.exhausted e) ∧
    ∀ a2 ∈ (generate ⟨["a", "b", "c"], [], 30, 1⟩
      (fun _ => RawOutcome.http 404 "not found") (fun _ => true) []).log,
      a2.keyIdx ≤ 0 + 1 :=
  ⟨by decide,
    C6_other_failure_aborts_walk ⟨["a", "b", "c"], [], 30, 1⟩
      (fun _ => RawOutcome.http 404 "not found") (fun _ => true) [] 0
      (by decide)⟩

/-- C8: a Success classification on the attempt at log position `k`
(against key index k+1) ends the walk: the log stops there, the raw
response payload of that key is returned with key_used_index = k+1, and no
later key is attempted. -/
theorem C8_success_returns_immediately (cfg : Config) (o : Nat → RawOutcome)
    (em : Nat → Bool) (L : List Nat) (k : Nat)
    (h : verdictAt (generate cfg o em L) k = some Verdict.success) :
    (generate cfg o em L).log.length = k + 1 ∧
    ∃ s b, o (k + 1) = RawOutcome.http s b ∧
      classifyHttp s b = Verdict.success ∧
      (generate cfg o em L).result = DispatchResult.succeeded (k + 1) b := by
  unfold verdictAt at h
  cases hg : (generate cfg o em L).log.get? k with
  | none => rw [hg] at h; simp at h
  | some a =>
    rw [hg] at h
    simp only [Option.map_some', Option.some.injEq] at h
    have hshape := generate_shape cfg o em L k a hg
    unfold generate at hg ⊢
    by_cases he : cfg.keys.isEmpty
    · rw [if_pos he] at hg; simp at hg
    · rw [if_neg he] at hg ⊢
      have hterm := (walk_terminal cfg o em L cfg.keys 1 0 none L k a hg).1 h
      rcases hterm with ⟨hlen, s, b, hob, hcs, hres⟩
      rw [hshape.1] at hob hres
      exact ⟨hlen, s, b, hob, hcs, hres⟩

/-- C8 witness: key 1 answers 200 with payload "ok"; the run succeeds with
key_used_index 1 and the payload, leaving keys 2 and 3 unattempted. -/
theorem C8_witness :
    verdictAt (generate ⟨["a", "b", "c"], [], 30, 1⟩
      (fun _ => RawOutcome.http 200 "ok") (fun _ => true) []) 0 =
      some Verdict.success ∧
    ((generate ⟨["a", "b", "c"], [], 30, 1⟩
      (fun _ => RawOutcome.http 200 "ok") (fun _ => true) []).log.length
      = 0 + 1 ∧
    ∃ s b, (fun _ => RawOutcome.http 200 "ok" : Nat → RawOutcome) (0 + 1) =
        RawOutcome.http s b ∧
      classifyHttp s b = Verdict.success ∧
      (generate ⟨["a", "b", "c"], [], 30, 1⟩
        (fun _ => RawOutcome.http 200 "ok") (fun _ => true) []).result =
        DispatchResult.succeeded (0 + 1) b) :=
  ⟨by decide,
    C8_success_returns_immediately ⟨["a", "b", "c"], [], 30, 1⟩
      (fun _ => RawOutcome.http 200 "ok") (fun _ => true) [] 0 (by decide)⟩

/-- C2: the first time a watched key index is observed rate-limited (it is
in the watch set and not in the ledger snapshot), the Alert Emitter is
invoked exactly once during that run; on delivery success the ledger
subsequently reports the index as notified, and any later sequential
request starting from the resulting ledger never invokes the emitter for
that index again, whatever its outcomes and emitter. -/
theorem C2_first_sighting_alert_exactly_once (cfg : Config)
    (o : Nat → RawOutcome) (em : Nat → Bool) (L : List Nat) (i : Nat)
    (hw : i ∈ cfg.watchSet) (hs : i ∉ L) (hem : em i = true)
    (hatt : hasAttempt (generate cfg o em L) i Verdict.rateLimited = true) :
    alertCount (generate cfg o em L) i = 1 ∧
    i ∈ (generate cfg o em L).ledger ∧
    ∀ (o2 : Nat → RawOutcome) (em2 : Nat → Bool),
      alertCount (generate cfg o2 em2 (generate cfg o em L).ledger) i = 0 := by
  have hmarked : i ∈ (generate cfg o em L).ledger := by
    rw [generate_ledger_mem]
    right
    unfold hasAttempt at hatt
    rcases List.any_eq_true.mp hatt with ⟨a, ha, hpa⟩
    simp only [Bool.and_eq_true, beq_iff_eq] at hpa
    have hinv := generate_entry cfg o em L a ha
    have halert : a.alerted = true := by
      rw [hinv.1, hpa.2, hpa.1]
      simp [hw, hs]
    refine ⟨a, ha, ?_, hpa.1⟩
    rw [hinv.2.1, halert, hpa.1, hem]
    rfl
  refine ⟨generate_alert_once cfg o em L i hw hs hatt, hmarked, ?_⟩
  intro o2 em2
  exact generate_alert_none cfg o2 em2 _ i hmarked

/-- C2 witness: a five-key pool with the production watch set {5, 8, 10},
every key rate-limited, a succeeding emitter and an empty ledger: key 5 is
alerted exactly once, lands in the ledger, and an identical second request
starting from that ledger alerts nobody for index 5. -/
theorem C2_witness :
    (5 ∈ ([5, 8, 10] : List Nat) ∧ (5 : Nat) ∉ ([] : List Nat) ∧
      hasAttempt (generate ⟨["a", "b", "c", "d", "e"], [5, 8, 10], 30, 1⟩
        (fun _ => RawOutcome.http 429 "x") (fun _ => true) []) 5
        Verdict.rateLimited = true) ∧
    alertCount (generate ⟨["a", "b", "c", "d", "e"], [5, 8, 10], 30, 1⟩
      (fun _ => RawOutcome.http 429 "x") (fun _ => true) []) 5 = 1 ∧
    5 ∈ (generate ⟨["a", "b", "c", "d", "e"], [5, 8, 10], 30, 1⟩
      (fun _ => RawOutcome.http 429 "x") (fun _ => true) []).ledger ∧
    alertCount (generate ⟨["a", "b", "c", "d", "e"], [5, 8, 10], 30, 1⟩
      (fun _ => RawOutcome.http 429 "x") (fun _ => true)
      (generate ⟨["a", "b", "c", "d", "e"], [5, 8, 10], 30, 1⟩
        (fun _ => RawOutcome.http 429 "x") (fun _ => true) []).ledger) 5 = 0 :=
  have h := C2_first_sighting_alert_exactly_once
    ⟨["a", "b", "c", "d", "e"], [5, 8, 10], 30, 1⟩
    (fun _ => RawOutcome.http 429 "x") (fun _ => true) [] 5
    (by decide) (by decide) rfl (by decide)
  ⟨⟨by decide, by decide, by decide⟩, h.1, h.2.1,
    h.2.2 (fun _ => RawOutcome.http 429 "x") (fun _ => true)⟩

/-- C9: a failed alert emission (emitter returns false) never aborts or
alters the dispatch flow: the emitter is still invoked exactly once for
the watched index, the ledger is not marked for it — neither a mark in the
log nor membership in the final table — the run's result is identical to
what any other emitter would give, and a later request starting from the
resulting ledger that observes the same watched index rate-limited invokes
the emitter for it again. -/
theorem C9_alert_failure_nonfatal (cfg : Config) (o : Nat → RawOutcome)
    (em : Nat → Bool) (L : List Nat) (i : Nat)
    (hw : i ∈ cfg.watchSet) (hs : i ∉ L) (hem : em i = false)
    (hatt : hasAttempt (generate cfg o em L) i Verdict.rateLimited = true) :
    alertCount (generate cfg o em L) i = 1 ∧
    markCount (generate cfg o em L) i = 0 ∧
    i ∉ (generate cfg o em L).ledger ∧
    (∀ em2 : Nat → Bool,
      (generate cfg o em L).result = (generate cfg o em2 L).result) ∧
    ∀ (o2 : Nat → RawOutcome) (em2 : Nat → Bool),
      hasAttempt (generate cfg o2 em2 (generate cfg o em L).ledger) i
        Verdict.rateLimited = true →
      alertCount (generate cfg o2 em2 (generate cfg o em L).ledger) i = 1 := by
  have hmc : markCount (generate cfg o em L) i = 0 := by
    unfold markCount
    rw [List.length_eq_zero, List.filter_eq_nil_iff]
    intro a ha hpa
    simp only [Bool.and_eq_true, beq_iff_eq] at hpa
    have hinv := generate_entry cfg o em L a ha
    have hfalse : a.marked = false := by
      rw [hinv.2.1, hpa.1, hem]
      simp
    rw [hpa.2] at hfalse
    exact Bool.noConfusion hfalse
  have hnl : i ∉ (generate cfg o em L).ledger := by
    rw [generate_ledger_mem]
    rintro (hi | ⟨a, ha, hm, hk⟩)
    · exact hs hi
    · have hinv := generate_entry cfg o em L a ha
      have hfalse : a.marked = false := by
        rw [hinv.2.1, hk, hem]
        simp
      rw [hm] at hfalse
      exact Bool.noConfusion hfalse
  refine ⟨generate_alert_once cfg o em L i hw hs hatt, hmc, hnl, ?_, ?_⟩
  · intro em2
    unfold generate
    by_cases he : cfg.keys.isEmpty
    · rw [if_pos he, if_pos he]
    · rw [if_neg he, if_neg he]
      exact (walk_em_indep cfg o em em2 L cfg.keys 1 0 none L L).1
  · intro o2 em2 hatt2
    exact generate_alert_once cfg o2 em2 _ i hw hnl hatt2

/-- C9 witness: two keys, watch set {1}, both keys rate-limited, emitter
always failing: the alert for key 1 is attempted once, nothing is marked,
the ledger stays empty, the result matches a run with a succeeding
emitter, and an identical follow-up request alerts key 1 once again. -/
theorem C9_witness :
    ((1 : Nat) ∈ ([1] : List Nat) ∧ (1 : Nat) ∉ ([] : List Nat) ∧
      hasAttempt (generate ⟨["a", "b"], [1], 30, 1⟩
        (fun _ => RawOutcome.http 429 "") (fun _ => false) []) 1
        Verdict.rateLimited = true) ∧
    alertCount (generate ⟨["a", "b"], [1], 30, 1⟩
      (fun _ => RawOutcome.http 429 "") (fun _ => false) []) 1 = 1 ∧
    markCount (generate ⟨["a", "b"], [1], 30, 1⟩
      (fun _ => RawOutcome.http 429 "") (fun _ => false) []) 1 = 0 ∧
    (1 : Nat) ∉ (generate ⟨["a", "b"], [1], 30, 1⟩
      (fun _ => RawOutcome.http 429 "") (fun _ => false) []).ledger ∧
    (generate ⟨["a", "b"], [1], 30, 1⟩
      (fun _ => RawOutcome.http 429 "") (fun _ => false) []).result =
      (generate ⟨["a", "b"], [1], 30, 1⟩
        (fun _ => RawOutcome.http 429 "") (fun _ => true) []).result ∧
    alertCount (generate ⟨["a", "b"], [1], 30, 1⟩
      (fun _ => RawOutcome.http 429 "") (fun _ => false)
      (generate ⟨["a", "b"], [1], 30, 1⟩
        (fun _ => RawOutcome.http 429 "") (fun _ => false) []).ledger) 1 = 1 :=
  have h := C9_alert_failure_nonfatal ⟨["a", "b"], [1], 30, 1⟩
    (fun _ => RawOutcome.http 429 "") (fun _ => false) [] 1
    (by decide) (by decide) rfl (by decide)
  ⟨⟨by decide, by decide, by decide⟩, h.1, h.2.1, h.2.2.1,
    h.2.2.2.1 (fun _ => true),
    h.2.2.2.2 (fun _ => RawOutcome.http 429 "") (fun _ => false) (by decide)⟩

/-- C10: if the SMTP transport is not fully configured (host, user,
password) or no recipient address is available, every alert emission
returns false without attempting delivery; a run using that emitter never
marks the ledger — the table comes out exactly as it went in — so the
exactly-once property reduces to re-attempting: any watched, not-yet
notified index observed rate-limited still gets the (failing) alert
attempt, on this and every subsequent request. -/
theorem C10_smtp_unconfigured_never_marks (smtp : SmtpConfig)
    (reqTo defaultTo : Option String) (deliver : Nat → Bool)
    (cfg : Config) (o : Nat → RawOutcome) (L : List Nat)
    (h : (truthy smtp.host && truthy smtp.user && truthy smtp.password &&
      truthy (chooseRecipient reqTo defaultTo)) = false) :
    (∀ dOk : Bool,
      send_warning_email smtp (chooseRecipient reqTo defaultTo) dOk = false) ∧
    (generate cfg o (fun i2 => send_warning_email smtp
      (chooseRecipient reqTo defaultTo) (deliver i2)) L).ledger = L ∧
    (∀ a ∈ (generate cfg o (fun i2 => send_warning_email smtp
      (chooseRecipient reqTo defaultTo) (deliver i2)) L).log,
      a.marked = false) ∧
    ∀ i, i ∈ cfg.watchSet → i ∉ L →
      hasAttempt (generate cfg o (fun i2 => send_warning_email smtp
        (chooseRecipient reqTo defaultTo) (deliver i2)) L) i
        Verdict.rateLimited = true →
      alertCount (generate cfg o (fun i2 => send_warning_email smtp
        (chooseRecipient reqTo defaultTo) (deliver i2)) L) i = 1 := by
  have hfalse : ∀ dOk : Bool,
      send_warning_email smtp (chooseRecipient reqTo defaultTo) dOk = false := by
    intro dOk
    unfold send_warning_email
    rw [h]
    rfl
  have hemf : ∀ i2, (fun i2 => send_warning_email smtp
      (chooseRecipient reqTo defaultTo) (deliver i2)) i2 = false :=
    fun i2 => hfalse (deliver i2)
  refine ⟨hfalse, ?_, ?_, ?_⟩
  · unfold generate
    by_cases he : cfg.keys.isEmpty
    · rw [if_pos he]
    · rw [if_neg he]
      exact walk_ledger_eq_of_em_false cfg o _ L hemf cfg.keys 1 0 none L
  · intro a ha
    have hinv := generate_entry cfg o _ L a ha
    rw [hinv.2.1, hemf a.keyIdx]
    simp
  · intro i hw hs hatt
    exact generate_alert_once cfg o _ L i hw hs hatt

/-- C10 witness: SMTP password missing; the single watched key 1 is
rate-limited, the emission fails, the ledger stays empty, and the alert
count for key 1 is still 1 (a fresh attempt). -/
theorem C10_witness :
    ((truthy (some "h") && truthy (some "u") && truthy (none : Option String)
      && truthy (chooseRecipient none (some "ops"))) = false) ∧
    send_warning_email ⟨some "h", some "u", none⟩
      (chooseRecipient none (some "ops")) true = false ∧
    (generate ⟨["a"], [1], 30, 1⟩ (fun _ => RawOutcome.http 429 "")
      (fun i2 => send_warning_email ⟨some "h", some "u", none⟩
        (chooseRecipient none (some "ops")) ((fun _ => true) i2)) []).ledger
      = [] ∧
    alertCount (generate ⟨["a"], [1], 30, 1⟩ (fun _ => RawOutcome.http 429 "")
      (fun i2 => send_warning_email ⟨some "h", some "u", none⟩
        (chooseRecipient none (some "ops")) ((fun _ => true) i2)) []) 1 = 1 :=
  have h := C10_smtp_unconfigured_never_marks ⟨some "h", some "u", none⟩
    none (some "ops") (fun _ => true) ⟨["a"], [1], 30, 1⟩
    (fun _ => RawOutcome.http 429 "") [] (by decide)
  ⟨by decide, h.1 true, h.2.1,
    h.2.2.2 1 (by decide) (by decide) (by decide)⟩
